import Mathlib

/-!
# mandel-qpu: the QPU dispatch layer (`lqpu.c`) and its client (`qpu_mandel.c`)

A shallow embedding of the dispatch layer of the repository.

* `unsigned` and `size_t` values are natural numbers reduced modulo `2 ^ 32`
  wherever the C code performs arithmetic on them (the code is written for the
  32-bit ARM target: `lqpu_execute` casts a pointer to `unsigned`).
* `int` values are integers; a conversion from an unsigned 32-bit value to `int`
  is `toInt32`.
* Host pointers are integer addresses; `0` is the null pointer.
* The firmware mailbox (`mailbox.h`) and the vendor library (`libbcm_host.so`)
  are external: the mailbox is a record of state-passing operations over an
  arbitrary world type, the vendor library a record of optional accessors.
  Every mailbox call is logged, with its arguments and its result, in a trace.
-/

namespace MandelQPU

/-! ## Machine arithmetic -/

/-- Number of values of a 32-bit machine word. -/
def WORD : Nat := 2 ^ 32

/-- Conversion of an unsigned 32-bit value to `int` (two's complement). -/
def toInt32 (n : Nat) : Int :=
  if n % WORD < 2 ^ 31 then ((n % WORD : Nat) : Int) else ((n % WORD : Nat) : Int) - (WORD : Int)

/-- Conversion of an `int` to `unsigned`. -/
def toUInt32 (z : Int) : Nat := (z % (WORD : Int)).toNat

/-- The constant `~0xf` after conversion to a 32-bit `size_t`. -/
def NOT_0xf : Nat := 0xFFFFFFF0

/-- The expression `(x + 0xf) & ~0xf` on 32-bit `size_t` values. -/
def align16 (x : Nat) : Nat := ((x + 0xf) % WORD) &&& NOT_0xf

/-! ## `lqpu.h` / `lqpu.c`: data -/

/-- The struct `LQPUPtr`: a bus address and the host pointer (the union `arm`
holds one pointer, seen under four types). -/
structure LQPUPtr where
  vc : Nat
  arm : Int
deriving DecidableEq, Repr

/-- The struct `LQPUMsg` (packed, two `unsigned`). -/
structure LQPUMsg where
  vc_uniforms : Nat
  vc_code : Nat
deriving DecidableEq, Repr

/-- The struct `LQPUHostInfo`. -/
structure LQPUHostInfo where
  mem_flg : Nat
  mem_map : Nat
  peri_addr : Nat
  peri_size : Nat
deriving DecidableEq, Repr

/-- The struct `LQPUBase`, the header stored at the start of the shared region. -/
structure LQPUBase where
  mb : Int
  handle : Nat
  size : Nat
  vcBase : Nat
  peri : Int
  peri_size : Nat
deriving DecidableEq, Repr

/-- The value of `sizeof(LQPUBase)` on the 32-bit target: six 4-byte fields. -/
def sizeof_LQPUBase : Nat := 24

/-- The macro `LQPU_USE_VC4_L2_CACHE`. -/
def LQPU_USE_VC4_L2_CACHE : Nat := 1

/-- The macro `BUS_TO_PHYS(x)`, `x & ~0xC0000000` on `unsigned`. -/
def BUS_TO_PHYS (x : Nat) : Nat := x &&& 0x3FFFFFFF

/-! ## The vendor library -/

/-- What `dlsym` finds in a loaded `libbcm_host.so`: each accessor is absent
(`none`) or present and returning an `unsigned` value. -/
structure BcmHost where
  bcm_host_get_sdram_address : Option Nat
  bcm_host_get_peripheral_address : Option Nat
  bcm_host_get_peripheral_size : Option Nat
deriving DecidableEq, Repr

/-- The function `lqpu_get_host_info`. The argument is the result of `dlopen`
(`none`: the library cannot be loaded). Returns the `int` result and the
contents of `*info` afterwards. -/
def lqpu_get_host_info (lib : Option BcmHost) : Int × LQPUHostInfo :=
  -- Pi 1 defaults
  let info : LQPUHostInfo :=
    { peri_addr := 0x20000000
      peri_size := 0x01000000
      mem_flg := if LQPU_USE_VC4_L2_CACHE ≠ 0 then 0xC else 0x4
      mem_map := if LQPU_USE_VC4_L2_CACHE ≠ 0 then 0x0 else 0x20000000 }
  match lib with
  | none => (-1, info)
  | some h =>
    let info : LQPUHostInfo :=
      match h.bcm_host_get_sdram_address with
      | some a => if a ≠ 0x40000000 then { info with mem_flg := 0x4, mem_map := 0x0 } else info
      | none => info
    let info : LQPUHostInfo :=
      match h.bcm_host_get_peripheral_address with
      | some a => { info with peri_addr := a }
      | none => info
    let info : LQPUHostInfo :=
      match h.bcm_host_get_peripheral_size with
      | some s => { info with peri_size := s }
      | none => info
    (0, info)

/-- The function `lqpu_ptr_add`: returns the old bus address and the advanced
cursor. `ptr->vc += bytes` is unsigned 32-bit arithmetic, `ptr->arm.bptr += bytes`
is pointer arithmetic on a `char*`. -/
def lqpu_ptr_add (ptr : LQPUPtr) (bytes : Int) : Nat × LQPUPtr :=
  let vc := ptr.vc
  (vc, { vc := toUInt32 ((ptr.vc : Int) + bytes), arm := ptr.arm + bytes })

/-- The function `lqpu_status_name`. -/
def lqpu_status_name (status : Nat) : String :=
  if status = 0 then "Operation successful.\n"
  else if status = 1 then "Unable to enable V3D. Please check your firmware is up to date.\n"
  else if status = 2 then "Can't open libbcm_host.\n"
  else if status = 3 then "Out of memory. Try a smaller batch or increase GPU memory.\n"
  else if status = 4 then "Unable to map Videocore peripherals into ARM memory space.\n"
  else if status = 0x80000000 then "Execution timed out.\n"
  else "Unknown status.\n"

/-! ## The firmware mailbox -/

/-- The functions of `mailbox.h` that `lqpu.c` and `qpu_mandel.c` call, as
state-passing operations on a world `W`; their signatures are read off the call
sites. `mapmem` returns a host pointer (`0` is `NULL`, which `lqpu_alloc` tests
for); the results of `mem_free`, `mem_unlock` and `unmapmem` are discarded by
every caller. -/
structure Mailbox (W : Type) where
  mbox_open : W → Int × W
  mbox_close : Int → W → W
  qpu_enable : Int → Nat → W → Nat × W
  mem_alloc : Int → Nat → Nat → Nat → W → Nat × W
  mem_free : Int → Nat → W → W
  mem_lock : Int → Nat → W → Nat × W
  mem_unlock : Int → Nat → W → W
  mapmem : Nat → Nat → W → Int × W
  unmapmem : Int → Nat → W → W

/-- One logged mailbox call: its arguments and, where used, its result (last
field). -/
inductive Call where
  | mbox_open (mb : Int)
  | mbox_close (mb : Int)
  | qpu_enable (mb : Int) (enable : Nat) (r : Nat)
  | mem_alloc (mb : Int) (size align flags : Nat) (handle : Nat)
  | mem_free (mb : Int) (handle : Nat)
  | mem_lock (mb : Int) (handle : Nat) (vc : Nat)
  | mem_unlock (mb : Int) (handle : Nat)
  | mapmem (base size : Nat) (p : Int)
  | unmapmem (p : Int) (size : Nat)
deriving DecidableEq, Repr

/-- Result of `lqpu_alloc`. `status` is the returned value, or `none` when the
function does not return because the header is stored through a null pointer.
`base` is `*basePtr` (address of the header and its contents) and `ptr` is
`*ptr`, each `none` when the function did not write it. -/
structure AllocOut (W : Type) where
  status : Option Nat
  base : Option (Int × LQPUBase)
  ptr : Option LQPUPtr
  trace : List Call
  world : W

/-- The function `lqpu_alloc`. -/
def lqpu_alloc {W : Type} (m : Mailbox W) (lib : Option BcmHost) (mb : Int) (size : Nat)
    (w : W) : AllocOut W :=
  let hi := lqpu_get_host_info lib
  let host := hi.2
  if hi.1 ≠ 0 then
    { status := some 2, base := none, ptr := none, trace := [], world := w }
  else
  let en := m.qpu_enable mb 1 w
  let t1 := [Call.qpu_enable mb 1 en.1]
  if en.1 ≠ 0 then
    { status := some 1, base := none, ptr := none, trace := t1, world := en.2 }
  else
  let size := (size + sizeof_LQPUBase) % WORD
  -- Allocate memory with 4k alignment
  let al := m.mem_alloc mb size 0x1000 host.mem_flg en.2
  let handle := al.1
  let t2 := t1 ++ [Call.mem_alloc mb size 0x1000 host.mem_flg handle]
  if handle = 0 then
    let dis := m.qpu_enable mb 0 al.2
    { status := some 3, base := none, ptr := none,
      trace := t2 ++ [Call.qpu_enable mb 0 dis.1], world := dis.2 }
  else
  let mp := m.mapmem host.peri_addr host.peri_size al.2
  let peri := mp.1
  let t3 := t2 ++ [Call.mapmem host.peri_addr host.peri_size peri]
  if peri = 0 then
    let w4 := m.mem_free mb handle mp.2
    let dis := m.qpu_enable mb 0 w4
    { status := some 4, base := none, ptr := none,
      trace := t3 ++ [Call.mem_free mb handle, Call.qpu_enable mb 0 dis.1], world := dis.2 }
  else
  let lk := m.mem_lock mb handle mp.2
  let vc := lk.1
  let phys := BUS_TO_PHYS ((vc + host.mem_map) % WORD)
  let mr := m.mapmem phys size lk.2
  let vptr := mr.1
  let t5 := t3 ++ [Call.mem_lock mb handle vc, Call.mapmem phys size vptr]
  let ptr : LQPUPtr := { vc := vc, arm := vptr }
  if vptr = 0 then
    -- `base->peri = peri` stores through a null pointer
    { status := none, base := none, ptr := some ptr, trace := t5, world := mr.2 }
  else
  let base : LQPUBase :=
    { peri := peri, peri_size := host.peri_size, mb := mb, handle := handle, size := size,
      vcBase := ptr.vc }
  -- Align this to 16 bytes as code is required to have this alignment.
  let adv := lqpu_ptr_add ptr (toInt32 (align16 sizeof_LQPUBase))
  { status := some 0, base := some (vptr, base), ptr := some adv.2, trace := t5, world := mr.2 }

/-- The function `lqpu_release`; `base` is the pointer, `hdr` the header it
points to. Returns the calls made and the world afterwards. -/
def lqpu_release {W : Type} (m : Mailbox W) (base : Int) (hdr : LQPUBase) (w : W) :
    List Call × W :=
  let mb := hdr.mb
  let handle := hdr.handle
  let size := hdr.size
  let w1 := m.unmapmem hdr.peri hdr.peri_size w
  let w2 := m.unmapmem base size w1
  let w3 := m.mem_unlock mb handle w2
  let w4 := m.mem_free mb handle w3
  let dis := m.qpu_enable mb 0 w4
  ([Call.unmapmem hdr.peri hdr.peri_size, Call.unmapmem base size, Call.mem_unlock mb handle,
    Call.mem_free mb handle, Call.qpu_enable mb 0 dis.1], dis.2)

/-! ## `qpu_mandel.c` -/

/-- Compile-time inputs of `qpu_mandel.c`: the macro `NUM_QPUS`, the value of
`sizeof(gpu_code)` (the included image `gpu_code.hex`) and whether `GPU_DEBUG`
is defined. -/
structure Build where
  NUM_QPUS : Nat
  gpu_code_size : Nat
  GPU_DEBUG : Bool
deriving DecidableEq, Repr

/-- The value of `sizeof(Uniforms)`: nine packed 4-byte fields. -/
def sizeof_Uniforms : Nat := 36

/-- The value of `sizeof(LQPUMsg)`: two packed 4-byte fields. -/
def sizeof_LQPUMsg : Nat := 8

/-- The value of `sizeof(unsigned)`. -/
def sizeof_unsigned : Nat := 4

/-- The integer fields of the struct `Uniforms` that `mandel_qpu_init` stores
(the `float` fields are left out). `debugAddr` is `none` when it is not
written. -/
structure Uniforms where
  qpuId : Nat
  debugAddr : Option Nat
  outputAddr : Nat
  maxIters : Int
  columnBlocks : Int
deriving DecidableEq, Repr

/-- The fields of `MandelArgs` that `mandel_qpu_init` reads as integers. -/
structure MandelArgs where
  width : Nat
  height : Nat
  maxIter : Nat
deriving DecidableEq, Repr

/-- The carve-outs of `mandel_qpu_init` (lines 194 to 210): host pointer and
bus address of each block, and the cursor after the last one. `code` is the
destination of the `memcpy` of the program image. -/
structure Layout where
  code : Int
  vc_code : Nat
  uniforms : Int
  vc_uniforms : Nat
  msg : Int
  vc_msg : Nat
  results : Int
  vc_results : Nat
  debug : Option Int
  vc_debug : Option Nat
  ptr : LQPUPtr
deriving DecidableEq, Repr

/-- The layout phase of `mandel_qpu_init`, from the cursor that `lqpu_alloc`
left. Each byte count is a `size_t` expression converted to the `int`
parameter of `lqpu_ptr_add`. -/
def mandel_qpu_layout (b : Build) (columns : Nat) (ptr : LQPUPtr) : Layout :=
  let code := ptr.arm
  let a1 := lqpu_ptr_add ptr (toInt32 (align16 b.gpu_code_size))
  -- Allocate memory for variables
  let uniforms := a1.2.arm
  let a2 := lqpu_ptr_add a1.2 (toInt32 ((sizeof_Uniforms * b.NUM_QPUS) % WORD))
  let msg := a2.2.arm
  let a3 := lqpu_ptr_add a2.2 (toInt32 ((sizeof_LQPUMsg * b.NUM_QPUS) % WORD))
  let results := a3.2.arm
  let a4 := lqpu_ptr_add a3.2 (toInt32 ((sizeof_unsigned * b.NUM_QPUS * 16 * columns) % WORD))
  if b.GPU_DEBUG then
    let debug := a4.2.arm
    let a5 := lqpu_ptr_add a4.2 (toInt32 ((sizeof_unsigned * b.NUM_QPUS * 16) % WORD))
    { code := code, vc_code := a1.1, uniforms := uniforms, vc_uniforms := a2.1, msg := msg,
      vc_msg := a3.1, results := results, vc_results := a4.1, debug := some debug,
      vc_debug := some a5.1, ptr := a5.2 }
  else
    { code := code, vc_code := a1.1, uniforms := uniforms, vc_uniforms := a2.1, msg := msg,
      vc_msg := a3.1, results := results, vc_results := a4.1, debug := none,
      vc_debug := none, ptr := a4.2 }

/-- The value stored in `uniforms[i]` by the loop of `mandel_qpu_init`. -/
def uniforms_entry (margs : MandelArgs) (columns : Nat) (l : Layout) (i : Nat) : Uniforms :=
  { qpuId := i % WORD
    debugAddr := l.vc_debug.map (fun vc_debug => (vc_debug + sizeof_unsigned * i * 16) % WORD)
    outputAddr := (l.vc_results + sizeof_unsigned * i * 16 * columns) % WORD
    maxIters := toInt32 margs.maxIter
    columnBlocks := toInt32 columns }

/-- The value stored in `msg[i]` by the loop of `mandel_qpu_init`. -/
def msg_entry (l : Layout) (i : Nat) : LQPUMsg :=
  { vc_uniforms := (l.vc_uniforms + sizeof_Uniforms * i) % WORD
    vc_code := l.vc_code }

/-- The struct `MandelQPUData` after `mandel_qpu_init`, without the NetCDF
handles; `msgMem` and `uniformsMem` are the arrays that `msg` and `uniforms`
point to. -/
structure MandelQPUData where
  mb : Int
  base : Int × LQPUBase
  msg : Int
  msgMem : List LQPUMsg
  vc_msg : Nat
  results : Int
  debug : Option Int
  uniforms : Int
  uniformsMem : List Uniforms
deriving DecidableEq, Repr

/-- How `mandel_qpu_init` ends: `exit(code)` after printing `out`, a store
through a null pointer inside `lqpu_alloc`, or normal completion with the
session data and the layout it was built from. -/
inductive InitResult where
  | exit (code : Int) (out : String)
  | fault
  | done (data : MandelQPUData) (layout : Layout)
deriving DecidableEq, Repr

/-- The expression for `requiredSize` in `mandel_qpu_init` (32-bit `size_t`
arithmetic, reduced once at the end of each assignment). -/
def requiredSize (b : Build) (columns : Nat) : Nat :=
  let r := (align16 b.gpu_code_size +
    b.NUM_QPUS * (sizeof_Uniforms + sizeof_LQPUMsg + sizeof_unsigned * 16 * columns)) % WORD
  if b.GPU_DEBUG then (r + sizeof_unsigned * b.NUM_QPUS * 16) % WORD else r

/-- The function `mandel_qpu_init`, up to the NetCDF set-up. Returns the
result, the mailbox calls made, and the world afterwards. -/
def mandel_qpu_init {W : Type} (m : Mailbox W) (lib : Option BcmHost) (b : Build)
    (margs : MandelArgs) (w : W) : InitResult × List Call × W :=
  if margs.width % 16 ≠ 0 then (InitResult.exit (-1) "Invalid width!", [], w)
  else if margs.height % b.NUM_QPUS ≠ 0 then (InitResult.exit (-1) "Invalid height!", [], w)
  else
  let columns := (margs.width / 16) % WORD
  let op := m.mbox_open w
  let mb := op.1
  let a := lqpu_alloc m lib mb (requiredSize b columns) op.2
  let t := Call.mbox_open mb :: a.trace
  match a.status with
  | none => (InitResult.fault, t, a.world)
  | some ret =>
    if ret ≠ 0 then
      (InitResult.exit (-1) (lqpu_status_name ret), t ++ [Call.mbox_close mb],
        m.mbox_close mb a.world)
    else
      match a.base, a.ptr with
      | some base, some ptr =>
        let l := mandel_qpu_layout b columns ptr
        let data : MandelQPUData :=
          { mb := mb, base := base, msg := l.msg,
            msgMem := (List.range b.NUM_QPUS).map (msg_entry l),
            vc_msg := l.vc_msg, results := l.results, debug := l.debug, uniforms := l.uniforms,
            uniformsMem := (List.range b.NUM_QPUS).map (uniforms_entry margs columns l) }
        (InitResult.done data l, t, a.world)
      -- not reached: `lqpu_alloc` writes both out-parameters whenever it returns 0
      | _, _ => (InitResult.fault, t, a.world)

/-- The byte offset of the cursor from the host base pointer of the region. -/
def cursor_offset (base : Int × LQPUBase) (ptr : LQPUPtr) : Int := ptr.arm - base.1

/-- A build for twelve units with a 16-byte program image, without debug
instrumentation. -/
def build12 : Build := { NUM_QPUS := 12, gpu_code_size := 16, GPU_DEBUG := false }

/-- Arguments for one batch: width 16, height 12. -/
def args16 : MandelArgs := { width := 16, height := 12, maxIter := 100 }

/-! ## A scripted mailbox for concrete runs -/

/-- A test firmware over a world that counts `mapmem` calls: `qpu_enable(mb, 1)`
returns `en`, `mem_alloc` returns `handle`, the first `mapmem` returns `peri`,
`mem_lock` returns `vc`, every later `mapmem` returns `region`; `mbox_open`
returns descriptor 3 and `qpu_enable(mb, 0)` returns 0. -/
def scripted (en handle : Nat) (peri : Int) (vc : Nat) (region : Int) : Mailbox Nat where
  mbox_open := fun w => (3, w)
  mbox_close := fun _ w => w
  qpu_enable := fun _ e w => (if e = 1 then en else 0, w)
  mem_alloc := fun _ _ _ _ w => (handle, w)
  mem_free := fun _ _ w => w
  mem_lock := fun _ _ w => (vc, w)
  mem_unlock := fun _ _ w => w
  mapmem := fun _ _ w => (if w = 0 then peri else region, w + 1)
  unmapmem := fun _ _ w => w

/-- A vendor library of a second-generation board: all three accessors
present. -/
def pi2_host : BcmHost :=
  { bcm_host_get_sdram_address := some 0xC0000000
    bcm_host_get_peripheral_address := some 0x3F000000
    bcm_host_get_peripheral_size := some 0x01000000 }

/-! ## Vocabulary of the properties -/

/-- A mailbox call that locks a block. -/
def Call.isLock : Call → Bool
  | Call.mem_lock _ _ _ => true
  | _ => false

/-- A mailbox call that maps memory into the host. -/
def Call.isMap : Call → Bool
  | Call.mapmem _ _ _ => true
  | _ => false

/-- Whether release call `r` gives back what acquisition call `a` obtained:
`unmapmem` of the pointer and size of a `mapmem`, `mem_unlock` of a locked
handle, `mem_free` of an allocated handle, `qpu_enable(mb, 0)` after a
successful `qpu_enable(mb, 1)`. -/
def Call.undoes : Call → Call → Bool
  | Call.unmapmem p size, Call.mapmem _ size0 p0 => p = p0 && size = size0
  | Call.mem_unlock mb handle, Call.mem_lock mb0 handle0 _ => mb = mb0 && handle = handle0
  | Call.mem_free mb handle, Call.mem_alloc mb0 _ _ _ handle0 => mb = mb0 && handle = handle0
  | Call.qpu_enable mb 0 _, Call.qpu_enable mb0 1 0 => mb = mb0
  | _, _ => false

/-- Whether the release calls `rel` undo the acquisition calls `acq` one by one
in exactly the reverse order. -/
def releases_in_reverse (rel acq : List Call) : Bool :=
  rel.length = acq.length && (List.zipWith Call.undoes rel acq.reverse).all id

/-- The six enumerated outcome values. -/
def enumerated_outcomes : List Nat := [0, 1, 2, 3, 4, 0x80000000]

/-- The condition under which `lqpu_get_host_info` switches to non-cached
access: the SDRAM accessor exists and reports a value other than the
hardware-generation-1 value `0x40000000`. -/
def reports_later_generation (h : BcmHost) : Prop :=
  ∃ a, h.bcm_host_get_sdram_address = some a ∧ a ≠ 0x40000000

/-! ## Status names -/

/-- C1: `lqpu_status_name` maps each of the six enumerated outcome values to a
non-empty message, the six messages are pairwise distinct, and every other
value maps to the fallback message "Unknown status.", which is none of the
six. -/
theorem lqpu_status_name_spec :
    (∀ s ∈ enumerated_outcomes, lqpu_status_name s ≠ "") ∧
    (enumerated_outcomes.map lqpu_status_name).Nodup ∧
    (∀ s : Nat, s ∉ enumerated_outcomes → lqpu_status_name s = "Unknown status.\n") ∧
    (∀ s ∈ enumerated_outcomes, lqpu_status_name s ≠ "Unknown status.\n") := by
  refine ⟨by decide, by decide, ?_, by decide⟩
  intro s hs
  simp only [enumerated_outcomes, List.mem_cons, List.mem_singleton, not_or, List.not_mem_nil,
    or_false] at hs
  obtain ⟨h0, h1, h2, h3, h4, h5⟩ := hs
  simp [lqpu_status_name, h0, h1, h2, h3, h4, h5]

/-! ## Platform discovery -/

/-- C9: with the vendor library loaded, `lqpu_get_host_info` succeeds and fills
each field independently: the register base is the reported peripheral address
or else `0x20000000`, the window size the reported peripheral size or else
`0x01000000`, and the access flag and offset are `(0x4, 0)` exactly when the
SDRAM accessor exists and reports a value other than `0x40000000`, and
`(0xC, 0)` exactly otherwise. -/
theorem lqpu_get_host_info_loaded (h : BcmHost) :
    (lqpu_get_host_info (some h)).1 = 0 ∧
    (lqpu_get_host_info (some h)).2.peri_addr =
      h.bcm_host_get_peripheral_address.getD 0x20000000 ∧
    (lqpu_get_host_info (some h)).2.peri_size =
      h.bcm_host_get_peripheral_size.getD 0x01000000 ∧
    (((lqpu_get_host_info (some h)).2.mem_flg = 0x4 ∧ (lqpu_get_host_info (some h)).2.mem_map = 0)
      ↔ reports_later_generation h) ∧
    (((lqpu_get_host_info (some h)).2.mem_flg = 0xC ∧ (lqpu_get_host_info (some h)).2.mem_map = 0)
      ↔ ¬ reports_later_generation h) := by
  obtain ⟨sd, pa, ps⟩ := h
  cases sd <;> cases pa <;> cases ps <;>
    simp [lqpu_get_host_info, reports_later_generation, LQPU_USE_VC4_L2_CACHE] <;>
    split <;> simp_all

/-! ## The region cursor -/

/-- Masking a 32-bit value with `~0xf` clears its low four bits. -/
theorem land_NOT_0xf (x : Nat) (h : x < 2 ^ 32) : x &&& NOT_0xf = x / 16 * 16 := by
  apply Nat.eq_of_testBit_eq
  intro j
  have hM : NOT_0xf = (2 ^ 28 - 1) <<< 4 := by decide
  have hx : x / 16 * 16 = (x >>> 4) <<< 4 := by
    rw [Nat.shiftRight_eq_div_pow, Nat.shiftLeft_eq]
  rw [Nat.testBit_land, hM, hx, Nat.testBit_shiftLeft, Nat.testBit_shiftLeft,
    Nat.testBit_shiftRight, Nat.testBit_two_pow_sub_one]
  by_cases h4 : 4 ≤ j
  · have e : 4 + (j - 4) = j := by omega
    rw [e]
    by_cases h32 : j < 32
    · have : j - 4 < 28 := by omega
      simp [h4, this]
    · have hb : x.testBit j = false := by
        apply Nat.testBit_lt_two_pow
        calc x < 2 ^ 32 := h
          _ ≤ 2 ^ j := Nat.pow_le_pow_right (by norm_num) (by omega)
      simp [hb]
  · simp [h4]

/-- Without overflow, `align16` rounds up to the next multiple of 16. -/
theorem align16_eq (x : Nat) (h : x + 15 < WORD) : align16 x = (x + 15) / 16 * 16 := by
  unfold align16
  rw [Nat.mod_eq_of_lt h]
  exact land_NOT_0xf _ h

/-- The result of `align16` is a 32-bit value. -/
theorem align16_lt (x : Nat) : align16 x < WORD := by
  unfold align16
  exact lt_of_le_of_lt Nat.and_le_left (Nat.mod_lt _ (by decide))

/-- A value below `2 ^ 31` is unchanged by the conversion to `int`. -/
theorem toInt32_of_lt (n : Nat) (h : n < 2 ^ 31) : toInt32 n = (n : Int) := by
  unfold toInt32 WORD
  split_ifs <;> omega
/-- The value of a cast to `unsigned` is the residue modulo `2 ^ 32`. -/
theorem toUInt32_cast (z : Int) : ((toUInt32 z : Nat) : Int) = z % (2 : Int) ^ 32 := by
  unfold toUInt32 WORD
  have h : (0 : Int) ≤ z % ((2 ^ 32 : Nat) : Int) := Int.emod_nonneg _ (by norm_num)
  rw [Int.toNat_of_nonneg h]
  norm_num

/-- C2, as stated, fails: for the cursor with bus address `0xFFFFFFF0` and host
pointer `4096`, advancing by 16 bytes wraps the bus address to `0` while the
host pointer becomes `4112`, so the difference between host pointer and bus
address changes (by `2 ^ 32`). -/
theorem lqpu_ptr_add_difference_changes :
    (lqpu_ptr_add { vc := 0xFFFFFFF0, arm := 4096 } 16).1 = 0xFFFFFFF0 ∧
    (lqpu_ptr_add { vc := 0xFFFFFFF0, arm := 4096 } 16).2 = { vc := 0, arm := 4112 } ∧
    (lqpu_ptr_add { vc := 0xFFFFFFF0, arm := 4096 } 16).2.arm -
        ((lqpu_ptr_add { vc := 0xFFFFFFF0, arm := 4096 } 16).2.vc : Int) ≠
      (4096 : Int) - ((0xFFFFFFF0 : Nat) : Int) := by
  decide

/-- C2, amended: `lqpu_ptr_add` returns the old bus address; afterwards the bus
address is the old one plus `N` modulo `2 ^ 32` and the host pointer is the old
one plus `N`; the difference between host pointer and bus address is the same
modulo `2 ^ 32` before and after, and exactly the same whenever the old bus
address plus `N` lies in `[0, 2 ^ 32)`. -/
theorem lqpu_ptr_add_spec (ptr : LQPUPtr) (N : Int) :
    (lqpu_ptr_add ptr N).1 = ptr.vc ∧
    (((lqpu_ptr_add ptr N).2.vc : Nat) : Int) = ((ptr.vc : Int) + N) % (2 : Int) ^ 32 ∧
    (lqpu_ptr_add ptr N).2.arm = ptr.arm + N ∧
    ((lqpu_ptr_add ptr N).2.arm - ((lqpu_ptr_add ptr N).2.vc : Int)) % (2 : Int) ^ 32 =
      (ptr.arm - (ptr.vc : Int)) % (2 : Int) ^ 32 ∧
    (0 ≤ (ptr.vc : Int) + N → (ptr.vc : Int) + N < (2 : Int) ^ 32 →
      (lqpu_ptr_add ptr N).2.arm - ((lqpu_ptr_add ptr N).2.vc : Int) =
        ptr.arm - (ptr.vc : Int)) := by
  have hvc : (((lqpu_ptr_add ptr N).2.vc : Nat) : Int) = ((ptr.vc : Int) + N) % (2 : Int) ^ 32 := by
    simp only [lqpu_ptr_add]
    exact toUInt32_cast _
  refine ⟨rfl, hvc, rfl, ?_, ?_⟩
  · rw [hvc]
    show (ptr.arm + N - ((ptr.vc : Int) + N) % (2 : Int) ^ 32) % (2 : Int) ^ 32 = _
    rw [Int.sub_emod, Int.emod_emod_of_dvd _ (dvd_refl _), ← Int.sub_emod]
    congr 1
    ring
  · intro h0 h1
    rw [hvc, Int.emod_eq_of_lt h0 h1]
    show ptr.arm + N - ((ptr.vc : Int) + N) = _
    ring

/-- Witness for `lqpu_ptr_add_spec`: a cursor at bus address `0xC0001000`, host
pointer `4096`, advanced by 32 bytes without wrapping. -/
theorem lqpu_ptr_add_spec_witness :
    (lqpu_ptr_add { vc := 0xC0001000, arm := 4096 } 32).1 = 0xC0001000 ∧
    (lqpu_ptr_add { vc := 0xC0001000, arm := 4096 } 32).2.arm -
        ((lqpu_ptr_add { vc := 0xC0001000, arm := 4096 } 32).2.vc : Int) =
      (4096 : Int) - ((0xC0001000 : Nat) : Int) :=
  ⟨(lqpu_ptr_add_spec { vc := 0xC0001000, arm := 4096 } 32).1,
   (lqpu_ptr_add_spec { vc := 0xC0001000, arm := 4096 } 32).2.2.2.2 (by decide) (by decide)⟩

/-! ## Allocation: the failure paths -/

/-- With the vendor library loaded, `lqpu_get_host_info` returns 0. -/
theorem lqpu_get_host_info_some_ret (h : BcmHost) : (lqpu_get_host_info (some h)).1 = 0 := rfl


/-- C3: with platform discovery succeeding, (1) if `qpu_enable(mb, 1)` fails,
`lqpu_alloc` returns 1 and that call is the whole trace; (2) if `mem_alloc`
returns handle 0, it returns 3 and the only call after the allocation is
`qpu_enable(mb, 0)`; (3) if mapping the register window returns `NULL`, it
returns 4 and the calls after the mapping are `mem_free` then
`qpu_enable(mb, 0)`. In no case is the block locked, and the region is never
mapped (no `mapmem` besides the one of the register window). -/
theorem lqpu_alloc_failure_paths {W : Type} (m : Mailbox W) (h : BcmHost) (mb : Int)
    (size : Nat) (w : W) :
    let host := (lqpu_get_host_info (some h)).2
    let en := m.qpu_enable mb 1 w
    let sz := (size + sizeof_LQPUBase) % WORD
    let al := m.mem_alloc mb sz 0x1000 host.mem_flg en.2
    let mp := m.mapmem host.peri_addr host.peri_size al.2
    let out := lqpu_alloc m (some h) mb size w
    (en.1 ≠ 0 →
      out.status = some 1 ∧ out.trace = [Call.qpu_enable mb 1 en.1]) ∧
    (en.1 = 0 → al.1 = 0 →
      out.status = some 3 ∧
      out.trace = [Call.qpu_enable mb 1 0, Call.mem_alloc mb sz 0x1000 host.mem_flg 0,
        Call.qpu_enable mb 0 (m.qpu_enable mb 0 al.2).1]) ∧
    (en.1 = 0 → al.1 ≠ 0 → mp.1 = 0 →
      out.status = some 4 ∧
      out.trace = [Call.qpu_enable mb 1 0, Call.mem_alloc mb sz 0x1000 host.mem_flg al.1,
        Call.mapmem host.peri_addr host.peri_size 0, Call.mem_free mb al.1,
        Call.qpu_enable mb 0 (m.qpu_enable mb 0 (m.mem_free mb al.1 mp.2)).1]) ∧
    ((en.1 ≠ 0 ∨ al.1 = 0 ∨ mp.1 = 0) →
      out.trace.all (fun c => !c.isLock) = true ∧ (out.trace.filter Call.isMap).length ≤ 1) := by
  intro host en sz al mp out
  have hinfo : (lqpu_get_host_info (some h)).1 = 0 := lqpu_get_host_info_some_ret h
  refine ⟨?_, ?_, ?_, ?_⟩
  · intro hen
    simp [out, lqpu_alloc, hinfo, en, hen]
  · intro hen hal
    simp only [en] at hen
    simp only [al, en, sz, host] at hal
    simp [out, lqpu_alloc, hinfo, hen, hal, al, en, sz, host]
  · intro hen hal hmp
    simp only [en] at hen
    simp only [al, en, sz, host] at hal
    simp only [mp, al, en, sz, host] at hmp
    simp [out, lqpu_alloc, hinfo, hen, hal, hmp, mp, al, en, sz, host]
  · intro hcase
    by_cases hen : (m.qpu_enable mb 1 w).1 = 0
    · by_cases hal : (m.mem_alloc mb ((size + sizeof_LQPUBase) % WORD) 0x1000
          (lqpu_get_host_info (some h)).2.mem_flg (m.qpu_enable mb 1 w).2).1 = 0
      · simp [out, lqpu_alloc, hinfo, hen, hal, Call.isLock, Call.isMap]
      · have hmp : mp.1 = 0 := by
          rcases hcase with h1 | h1 | h1
          · exact absurd hen h1
          · exact absurd h1 hal
          · exact h1
        simp only [mp, al, en, sz, host] at hmp
        simp [out, lqpu_alloc, hinfo, hen, hal, hmp, Call.isLock, Call.isMap]
    · simp [out, lqpu_alloc, hinfo, hen, Call.isLock, Call.isMap]

/-- Witness for `lqpu_alloc_failure_paths`: a firmware that refuses activation,
one that returns handle 0, and one that cannot map the register window. -/
theorem lqpu_alloc_failure_paths_witness :
    ((lqpu_alloc (scripted 1 5 4096 0xC0001000 8192) (some pi2_host) 3 1312 0).status = some 1 ∧
      (lqpu_alloc (scripted 1 5 4096 0xC0001000 8192) (some pi2_host) 3 1312 0).trace =
        [Call.qpu_enable 3 1 1]) ∧
    ((lqpu_alloc (scripted 0 0 4096 0xC0001000 8192) (some pi2_host) 3 1312 0).status = some 3 ∧
      (lqpu_alloc (scripted 0 0 4096 0xC0001000 8192) (some pi2_host) 3 1312 0).trace =
        [Call.qpu_enable 3 1 0, Call.mem_alloc 3 1336 0x1000 0x4 0, Call.qpu_enable 3 0 0]) ∧
    ((lqpu_alloc (scripted 0 5 0 0xC0001000 8192) (some pi2_host) 3 1312 0).status = some 4 ∧
      (lqpu_alloc (scripted 0 5 0 0xC0001000 8192) (some pi2_host) 3 1312 0).trace =
        [Call.qpu_enable 3 1 0, Call.mem_alloc 3 1336 0x1000 0x4 5,
          Call.mapmem 0x3F000000 0x01000000 0, Call.mem_free 3 5, Call.qpu_enable 3 0 0]) :=
  ⟨(lqpu_alloc_failure_paths (scripted 1 5 4096 0xC0001000 8192) pi2_host 3 1312 0).1
      (by decide),
   (lqpu_alloc_failure_paths (scripted 0 0 4096 0xC0001000 8192) pi2_host 3 1312 0).2.1
      (by decide) (by decide),
   (lqpu_alloc_failure_paths (scripted 0 5 0 0xC0001000 8192) pi2_host 3 1312 0).2.2.1
      (by decide) (by decide) (by decide)⟩

/-! ## Allocation: the vendor library is missing -/

/-- C4, as stated, fails: with the vendor library not loadable and a firmware on
which every call would succeed, `lqpu_alloc` returns 2 and makes no call at all:
neither activation nor block allocation is attempted. -/
theorem lqpu_alloc_library_missing_is_fatal :
    (lqpu_alloc (scripted 0 5 4096 0xC0001000 8192) none 3 1312 0).status = some 2 ∧
    (lqpu_alloc (scripted 0 5 4096 0xC0001000 8192) none 3 1312 0).trace = [] := by
  decide

/-- C4, amended: when the vendor library cannot be loaded, `lqpu_get_host_info`
fills in the default configuration (register base `0x20000000`, window size
`0x01000000`, cached access flag `0xC`, offset 0) but returns -1, and
`lqpu_alloc` returns outcome 2 without any firmware call, leaving the world
unchanged and both out-parameters unwritten. -/
theorem lqpu_alloc_library_missing {W : Type} (m : Mailbox W) (mb : Int) (size : Nat) (w : W) :
    lqpu_get_host_info none =
      (-1, { mem_flg := 0xC, mem_map := 0, peri_addr := 0x20000000, peri_size := 0x01000000 }) ∧
    (lqpu_alloc m none mb size w).status = some 2 ∧
    lqpu_status_name 2 = "Can't open libbcm_host.\n" ∧
    (lqpu_alloc m none mb size w).trace = [] ∧
    (lqpu_alloc m none mb size w).world = w ∧
    (lqpu_alloc m none mb size w).base = none ∧
    (lqpu_alloc m none mb size w).ptr = none := by
  refine ⟨by decide, ?_, by decide, ?_, ?_, ?_, ?_⟩ <;>
    simp [lqpu_alloc, lqpu_get_host_info]

/-! ## Allocation: success -/

/-- What a successful `lqpu_alloc` did: the five acquisition calls in order,
the header it stored and the cursor it left. -/
theorem lqpu_alloc_success {W : Type} (m : Mailbox W) (lib : Option BcmHost) (mb : Int)
    (size : Nat) (w : W) (hret : (lqpu_alloc m lib mb size w).status = some 0) :
    ∃ (handle vc : Nat) (peri vptr : Int),
      handle ≠ 0 ∧ peri ≠ 0 ∧ vptr ≠ 0 ∧
      (lqpu_alloc m lib mb size w).trace =
        [Call.qpu_enable mb 1 0,
         Call.mem_alloc mb ((size + sizeof_LQPUBase) % WORD) 0x1000
           (lqpu_get_host_info lib).2.mem_flg handle,
         Call.mapmem (lqpu_get_host_info lib).2.peri_addr (lqpu_get_host_info lib).2.peri_size peri,
         Call.mem_lock mb handle vc,
         Call.mapmem (BUS_TO_PHYS ((vc + (lqpu_get_host_info lib).2.mem_map) % WORD))
           ((size + sizeof_LQPUBase) % WORD) vptr] ∧
      (lqpu_alloc m lib mb size w).base =
        some (vptr, { mb := mb, handle := handle, size := (size + sizeof_LQPUBase) % WORD,
                      vcBase := vc, peri := peri,
                      peri_size := (lqpu_get_host_info lib).2.peri_size }) ∧
      (lqpu_alloc m lib mb size w).ptr =
        some (lqpu_ptr_add { vc := vc, arm := vptr } (toInt32 (align16 sizeof_LQPUBase))).2 := by
  unfold lqpu_alloc at hret ⊢
  simp only [] at hret ⊢
  split_ifs at hret ⊢ with h1 h2 h3 h4 h5 <;> simp at hret
  have h2 := not_not.mp h2
  refine ⟨_, _, _, _, h3, h4, h5, ?_, rfl, rfl⟩
  simp [h2]

/-! ## Teardown order -/

/-- C5, as stated, fails: after a successful `lqpu_alloc` on the scripted
firmware the acquisitions are activate, allocate, map register window, lock,
map region, and `lqpu_release` calls unmap register window, unmap region,
unlock, free, deactivate, which is not the reverse order: the first release
undoes the third acquisition, not the last. -/
theorem lqpu_release_not_reverse :
    (lqpu_alloc (scripted 0 5 4096 0xC0001000 8192) (some pi2_host) 3 1312 0).status = some 0 ∧
    (lqpu_alloc (scripted 0 5 4096 0xC0001000 8192) (some pi2_host) 3 1312 0).base =
      some (8192, { mb := 3, handle := 5, size := 1336, vcBase := 0xC0001000, peri := 4096,
                    peri_size := 0x01000000 }) ∧
    (lqpu_alloc (scripted 0 5 4096 0xC0001000 8192) (some pi2_host) 3 1312 0).trace =
      [Call.qpu_enable 3 1 0, Call.mem_alloc 3 1336 0x1000 0x4 5,
       Call.mapmem 0x3F000000 0x01000000 4096, Call.mem_lock 3 5 0xC0001000,
       Call.mapmem 0x1000 1336 8192] ∧
    (lqpu_release (scripted 0 5 4096 0xC0001000 8192) 8192
        { mb := 3, handle := 5, size := 1336, vcBase := 0xC0001000, peri := 4096,
          peri_size := 0x01000000 } 2).1 =
      [Call.unmapmem 4096 0x01000000, Call.unmapmem 8192 1336, Call.mem_unlock 3 5,
       Call.mem_free 3 5, Call.qpu_enable 3 0 0] ∧
    releases_in_reverse
      (lqpu_release (scripted 0 5 4096 0xC0001000 8192) 8192
        { mb := 3, handle := 5, size := 1336, vcBase := 0xC0001000, peri := 4096,
          peri_size := 0x01000000 } 2).1
      (lqpu_alloc (scripted 0 5 4096 0xC0001000 8192) (some pi2_host) 3 1312 0).trace = false := by
  decide

/-- C5, amended: a successful `lqpu_alloc` acquires, in order, the accelerator
(`a1`), the block (`a2`), the register-window mapping (`a3`), the lock (`a4`)
and the region mapping (`a5`); `lqpu_release` on the header it stored calls
unmap register window, unmap region, unlock, free, deactivate. These undo every
acquisition once, in the exact reverse of the order `a1, a2, a4, a5, a3`: the
reverse of acquisition except that the register window, mapped third, is
unmapped first. -/
theorem lqpu_release_order {W : Type} (m : Mailbox W) (lib : Option BcmHost) (mb : Int)
    (size : Nat) (w w' : W) (p : Int) (hdr : LQPUBase)
    (hret : (lqpu_alloc m lib mb size w).status = some 0)
    (hbase : (lqpu_alloc m lib mb size w).base = some (p, hdr)) :
    ∃ a1 a2 a3 a4 a5 : Call,
      (lqpu_alloc m lib mb size w).trace = [a1, a2, a3, a4, a5] ∧
      a1 = Call.qpu_enable mb 1 0 ∧
      a2 = Call.mem_alloc mb hdr.size 0x1000 (lqpu_get_host_info lib).2.mem_flg hdr.handle ∧
      a3 = Call.mapmem (lqpu_get_host_info lib).2.peri_addr hdr.peri_size hdr.peri ∧
      a4 = Call.mem_lock mb hdr.handle hdr.vcBase ∧
      a5 = Call.mapmem (BUS_TO_PHYS ((hdr.vcBase + (lqpu_get_host_info lib).2.mem_map) % WORD))
        hdr.size p ∧
      (lqpu_release m p hdr w').1 =
        [Call.unmapmem hdr.peri hdr.peri_size, Call.unmapmem p hdr.size,
         Call.mem_unlock mb hdr.handle, Call.mem_free mb hdr.handle,
         Call.qpu_enable mb 0 (m.qpu_enable mb 0 (m.mem_free mb hdr.handle
           (m.mem_unlock mb hdr.handle (m.unmapmem p hdr.size
             (m.unmapmem hdr.peri hdr.peri_size w'))))).1] ∧
      releases_in_reverse (lqpu_release m p hdr w').1 [a1, a2, a4, a5, a3] = true := by
  obtain ⟨handle, vc, peri, vptr, -, -, -, htrace, hb, -⟩ := lqpu_alloc_success m lib mb size w hret
  rw [hb] at hbase
  simp only [Option.some.injEq, Prod.mk.injEq] at hbase
  obtain ⟨rfl, rfl⟩ := hbase
  refine ⟨_, _, _, _, _, htrace, rfl, rfl, rfl, rfl, rfl, rfl, ?_⟩
  simp [lqpu_release, releases_in_reverse, Call.undoes]

/-- Witness for `lqpu_release_order` on the scripted firmware. -/
theorem lqpu_release_order_witness :
    ∃ a1 a2 a3 a4 a5 : Call,
      (lqpu_alloc (scripted 0 5 4096 0xC0001000 8192) (some pi2_host) 3 1312 0).trace =
        [a1, a2, a3, a4, a5] ∧
      releases_in_reverse
        (lqpu_release (scripted 0 5 4096 0xC0001000 8192) 8192
          { mb := 3, handle := 5, size := 1336, vcBase := 0xC0001000, peri := 4096,
            peri_size := 0x01000000 } 2).1 [a1, a2, a4, a5, a3] = true := by
  obtain ⟨a1, a2, a3, a4, a5, h, -, -, -, -, -, -, hr⟩ :=
    lqpu_release_order (scripted 0 5 4096 0xC0001000 8192) (some pi2_host) 3 1312 0 2 8192
      { mb := 3, handle := 5, size := 1336, vcBase := 0xC0001000, peri := 4096,
        peri_size := 0x01000000 } (by decide) (by decide)
  exact ⟨a1, a2, a3, a4, a5, h, hr⟩

/-! ## Size of the region -/

/-- C6, as stated, fails: for the requested size `S = 0xFFFFFFFF` the sum
`S + sizeof(LQPUBase)` wraps to 23; on the scripted firmware `lqpu_alloc`
returns 0 having requested 23 bytes from the firmware, mapped 23 bytes and
recorded 23 in the header, which is less than `S`. -/
theorem lqpu_alloc_size_wraps :
    (0 : Nat) < 0xFFFFFFFF ∧ 0xFFFFFFFF < WORD ∧
    (lqpu_alloc (scripted 0 5 4096 0xC0001000 8192) (some pi2_host) 3 0xFFFFFFFF 0).status =
      some 0 ∧
    (lqpu_alloc (scripted 0 5 4096 0xC0001000 8192) (some pi2_host) 3 0xFFFFFFFF 0).trace =
      [Call.qpu_enable 3 1 0, Call.mem_alloc 3 23 0x1000 0x4 5,
       Call.mapmem 0x3F000000 0x01000000 4096, Call.mem_lock 3 5 0xC0001000,
       Call.mapmem 0x1000 23 8192] ∧
    (lqpu_alloc (scripted 0 5 4096 0xC0001000 8192) (some pi2_host) 3 0xFFFFFFFF 0).base =
      some (8192, { mb := 3, handle := 5, size := 23, vcBase := 0xC0001000, peri := 4096,
                    peri_size := 0x01000000 }) ∧
    ¬ (0xFFFFFFFF ≤ 23) := by
  decide

/-- C6, amended: for every requested size `S` with `S + sizeof(LQPUBase) < 2 ^ 32`,
when `lqpu_alloc` returns 0 the byte length it requested from the firmware
(`mem_alloc`), mapped into host memory (the second `mapmem`) and recorded in
the header (`base->size`) is `S + sizeof(LQPUBase)`, which is at least `S`. -/
theorem lqpu_alloc_size {W : Type} (m : Mailbox W) (lib : Option BcmHost) (mb : Int)
    (S : Nat) (w : W) (hfit : S + sizeof_LQPUBase < WORD)
    (hret : (lqpu_alloc m lib mb S w).status = some 0) :
    ∃ (handle vc phys flags : Nat) (peri vptr : Int) (hdr : LQPUBase) (a1 a3 a4 : Call),
      (lqpu_alloc m lib mb S w).trace =
        [a1, Call.mem_alloc mb (S + sizeof_LQPUBase) 0x1000 flags handle, a3, a4,
         Call.mapmem phys (S + sizeof_LQPUBase) vptr] ∧
      a1 = Call.qpu_enable mb 1 0 ∧
      a3 = Call.mapmem (lqpu_get_host_info lib).2.peri_addr
        (lqpu_get_host_info lib).2.peri_size peri ∧
      a4 = Call.mem_lock mb handle vc ∧
      (lqpu_alloc m lib mb S w).base = some (vptr, hdr) ∧
      hdr.size = S + sizeof_LQPUBase ∧
      S ≤ hdr.size := by
  obtain ⟨handle, vc, peri, vptr, -, -, -, htrace, hb, -⟩ := lqpu_alloc_success m lib mb S w hret
  rw [Nat.mod_eq_of_lt hfit] at htrace hb
  exact ⟨handle, vc, _, _, peri, vptr, _, _, _, _, htrace, rfl, rfl, rfl, hb, rfl,
    Nat.le_add_right _ _⟩

/-- Witness for `lqpu_alloc_size`: 1312 requested bytes on the scripted
firmware give a region of 1336 bytes. -/
theorem lqpu_alloc_size_witness :
    ∃ (vptr : Int) (hdr : LQPUBase),
      (lqpu_alloc (scripted 0 5 4096 0xC0001000 8192) (some pi2_host) 3 1312 0).base =
        some (vptr, hdr) ∧
      hdr.size = 1312 + sizeof_LQPUBase ∧ 1312 ≤ hdr.size := by
  obtain ⟨-, -, -, -, -, vptr, hdr, -, -, -, -, -, -, -, hb, hs, hle⟩ :=
    lqpu_alloc_size (scripted 0 5 4096 0xC0001000 8192) (some pi2_host) 3 1312 0
      (by decide) (by decide)
  exact ⟨vptr, hdr, hb, hs, hle⟩

/-! ## Allocation: unchecked steps -/

/-- C8, the code at the failing inputs. First input: every step succeeds but
mapping the region returns `NULL`; `lqpu_alloc` makes no release call after the
failed mapping (the trace ends with it) and then stores the header through the
null pointer, so it does not return an outcome; the block stays allocated and
locked, the register window mapped and the accelerator active. Second input:
every step succeeds but `mem_lock` yields no bus address (0); `lqpu_alloc`
returns 0 and nothing is released. -/
theorem lqpu_alloc_unchecked_steps :
    ((lqpu_alloc (scripted 0 5 4096 0xC0001000 0) (some pi2_host) 3 1312 0).status = none ∧
      (lqpu_alloc (scripted 0 5 4096 0xC0001000 0) (some pi2_host) 3 1312 0).trace =
        [Call.qpu_enable 3 1 0, Call.mem_alloc 3 1336 0x1000 0x4 5,
         Call.mapmem 0x3F000000 0x01000000 4096, Call.mem_lock 3 5 0xC0001000,
         Call.mapmem 0x1000 1336 0]) ∧
    ((lqpu_alloc (scripted 0 5 4096 0 8192) (some pi2_host) 3 1312 0).status = some 0 ∧
      (lqpu_alloc (scripted 0 5 4096 0 8192) (some pi2_host) 3 1312 0).trace =
        [Call.qpu_enable 3 1 0, Call.mem_alloc 3 1336 0x1000 0x4 5,
         Call.mapmem 0x3F000000 0x01000000 4096, Call.mem_lock 3 5 0,
         Call.mapmem 0 1336 8192]) := by
  decide

/-! ## Payload layout -/

/-- C10, the code at a failing input: twelve units, a 16-byte program image,
width 16, no debug buffer. `requiredSize` is 1312, `lqpu_alloc` records
`base->size = 1336` and leaves the cursor at offset 32 (the header rounded up
to 16); after the last carve-out the cursor is at offset 1344, which is 8 bytes
past `base->size`. -/
theorem mandel_qpu_init_overruns_region :
    args16.width % 16 = 0 ∧
    requiredSize build12 1 = 1312 ∧
    ∃ data l,
      (mandel_qpu_init (scripted 0 5 4096 0xC0001000 8192) (some pi2_host) build12 args16 0).1 =
        InitResult.done data l ∧
      data.base.2.size = 1336 ∧
      cursor_offset data.base l.ptr = 1344 ∧
      ¬ (cursor_offset data.base l.ptr ≤ (data.base.2.size : Int)) := by
  refine ⟨by decide, by decide, _, _, rfl, ?_, ?_, ?_⟩ <;> decide

/-- What `mandel_qpu_init` did when it completes: the width is a multiple of
16, `lqpu_alloc` returned 0 for `requiredSize`, and the layout starts from the
cursor that `lqpu_alloc` left behind the header. -/
theorem mandel_qpu_init_done {W : Type} (m : Mailbox W) (lib : Option BcmHost) (b : Build)
    (margs : MandelArgs) (w : W) (data : MandelQPUData) (l : Layout)
    (hdone : (mandel_qpu_init m lib b margs w).1 = InitResult.done data l) :
    margs.width % 16 = 0 ∧
    data.base.2.size = (requiredSize b ((margs.width / 16) % WORD) + sizeof_LQPUBase) % WORD ∧
    l = mandel_qpu_layout b ((margs.width / 16) % WORD)
      (lqpu_ptr_add { vc := data.base.2.vcBase, arm := data.base.1 }
        (toInt32 (align16 sizeof_LQPUBase))).2 ∧
    data.msgMem = (List.range b.NUM_QPUS).map (msg_entry l) ∧
    data.uniformsMem =
      (List.range b.NUM_QPUS).map (uniforms_entry margs ((margs.width / 16) % WORD) l) ∧
    data.uniforms = l.uniforms ∧ data.msg = l.msg ∧ data.vc_msg = l.vc_msg ∧
    data.results = l.results := by
  unfold mandel_qpu_init at hdone
  simp only [] at hdone
  split_ifs at hdone with h1 h2
  split at hdone
  · simp at hdone
  · rename_i ret hst
    split_ifs at hdone with h3
    · have h3 := not_not.mp h3
      subst h3
      obtain ⟨handle, vc, peri, vptr, -, -, -, -, hb, hp⟩ := lqpu_alloc_success _ _ _ _ _ hst
      rw [hb, hp] at hdone
      simp only [Prod.mk.injEq, InitResult.done.injEq] at hdone
      obtain ⟨rfl, rfl⟩ := hdone
      exact ⟨not_not.mp h1, rfl, rfl, rfl, rfl, rfl, rfl, rfl, rfl⟩

/-- The cursor that `lqpu_alloc` leaves: 32 bytes behind the base in both
address spaces. -/
theorem lqpu_alloc_cursor (vc : Nat) (vptr : Int) :
    (lqpu_ptr_add { vc := vc, arm := vptr } (toInt32 (align16 sizeof_LQPUBase))).2 =
      { vc := (vc + 32) % WORD, arm := vptr + 32 } := by
  have h : toInt32 (align16 sizeof_LQPUBase) = ((32 : Nat) : Int) := by decide
  simp only [lqpu_ptr_add, h, toUInt32]
  congr 1

/-- The overrun at every input: whenever `mandel_qpu_init` completes and the
size computations do not overflow, the cursor after the last carve-out is at
offset `requiredSize + 32` while `base->size` is `requiredSize + 24`: the
layout ends 8 bytes past the region, because `lqpu_alloc` adds
`sizeof(LQPUBase)` to the size but advances the cursor by that size rounded up
to 16. -/
theorem mandel_qpu_init_overrun_general {W : Type} (m : Mailbox W) (lib : Option BcmHost)
    (b : Build) (margs : MandelArgs) (w : W) (data : MandelQPUData) (l : Layout)
    (hdone : (mandel_qpu_init m lib b margs w).1 = InitResult.done data l)
    (hwidth : margs.width < WORD)
    (hcode : b.gpu_code_size + 15 < 2 ^ 31)
    (hsize : (b.gpu_code_size + 15) / 16 * 16 +
      b.NUM_QPUS * (sizeof_Uniforms + sizeof_LQPUMsg + sizeof_unsigned * 16 * (margs.width / 16))
      + sizeof_unsigned * b.NUM_QPUS * 16 + 32 < 2 ^ 31) :
    (data.base.2.size : Int) = requiredSize b (margs.width / 16) + 24 ∧
    cursor_offset data.base l.ptr = requiredSize b (margs.width / 16) + 32 ∧
    cursor_offset data.base l.ptr = (data.base.2.size : Int) + 8 := by
  obtain ⟨-, hsz, hl, -⟩ := mandel_qpu_init_done m lib b margs w data l hdone
  rw [lqpu_alloc_cursor] at hl
  have hcol : (margs.width / 16) % WORD = margs.width / 16 :=
    Nat.mod_eq_of_lt (lt_of_le_of_lt (Nat.div_le_self _ _) hwidth)
  rw [hcol] at hl hsz
  have hC : align16 b.gpu_code_size = (b.gpu_code_size + 15) / 16 * 16 :=
    align16_eq _ (lt_trans hcode (by decide))
  simp only [sizeof_Uniforms, sizeof_LQPUMsg, sizeof_unsigned] at hsize
  have hP : 4 * b.NUM_QPUS * 16 * (margs.width / 16) = 64 * (b.NUM_QPUS * (margs.width / 16)) := by
    ring
  have hQ : b.NUM_QPUS * (36 + 8 + 4 * 16 * (margs.width / 16)) =
      44 * b.NUM_QPUS + 64 * (b.NUM_QPUS * (margs.width / 16)) := by
    ring
  rw [hQ] at hsize
  have hreq : requiredSize b (margs.width / 16) =
      (b.gpu_code_size + 15) / 16 * 16 + 44 * b.NUM_QPUS +
        64 * (b.NUM_QPUS * (margs.width / 16)) +
        (if b.GPU_DEBUG then 4 * b.NUM_QPUS * 16 else 0) := by
    simp only [requiredSize, sizeof_Uniforms, sizeof_LQPUMsg, sizeof_unsigned, hC, hQ]
    unfold WORD
    split_ifs <;> omega
  have hoff : cursor_offset data.base l.ptr = requiredSize b (margs.width / 16) + 32 := by
    rw [hl, hreq]
    simp only [cursor_offset, mandel_qpu_layout, lqpu_ptr_add, sizeof_Uniforms, sizeof_LQPUMsg,
      sizeof_unsigned, hC, hP]
    have t1 : toInt32 ((b.gpu_code_size + 15) / 16 * 16) =
        (((b.gpu_code_size + 15) / 16 * 16 : Nat) : Int) := toInt32_of_lt _ (by omega)
    have t2 : toInt32 (36 * b.NUM_QPUS % WORD) = ((36 * b.NUM_QPUS : Nat) : Int) := by
      rw [Nat.mod_eq_of_lt (by unfold WORD; omega)]
      exact toInt32_of_lt _ (by omega)
    have t3 : toInt32 (8 * b.NUM_QPUS % WORD) = ((8 * b.NUM_QPUS : Nat) : Int) := by
      rw [Nat.mod_eq_of_lt (by unfold WORD; omega)]
      exact toInt32_of_lt _ (by omega)
    have t4 : toInt32 (64 * (b.NUM_QPUS * (margs.width / 16)) % WORD) =
        ((64 * (b.NUM_QPUS * (margs.width / 16)) : Nat) : Int) := by
      rw [Nat.mod_eq_of_lt (by unfold WORD; omega)]
      exact toInt32_of_lt _ (by omega)
    have t5 : toInt32 (4 * b.NUM_QPUS * 16 % WORD) = ((4 * b.NUM_QPUS * 16 : Nat) : Int) := by
      rw [Nat.mod_eq_of_lt (by unfold WORD; omega)]
      exact toInt32_of_lt _ (by omega)
    split <;> simp only [t1, t2, t3, t4, t5] <;> push_cast <;> ring
  have hsz2 : (data.base.2.size : Int) = requiredSize b (margs.width / 16) + 24 := by
    rw [hsz, hreq]
    unfold sizeof_LQPUBase WORD
    split_ifs <;> omega
  exact ⟨hsz2, hoff, by rw [hoff, hsz2]; ring⟩

end MandelQPU
